import Mathlib

attribute [local semireducible] Rat.add Rat.mul

/-!
Verification of the AutoHealX AI health monitor
(`src/monitoring/ai-health-monitor.py`) against its specification.

The Python source is shallowly embedded below.  Floating-point metric
values and model scores are modelled as rationals (`ℚ`); the sklearn
scaler/IsolationForest pipeline (lines 214-228 of the source) is an
opaque numeric computation and is modelled as an oracle parameter that
either fails (a raised exception, modelled as `Except.error`) or yields
the model's `predict` label and `score_samples` value.  Python
exceptions are modelled with `Except`/`Option`; `try`/`except` blocks
become pattern matches on those values.  Presentation-only fields of
the Python dataclasses (timestamps, human-readable `message` strings)
are omitted from the embedding: no claim depends on them.
-/

namespace AutoHealX

/-- Alert types constructed by the monitor (string literals in the source). -/
inductive AlertType
  | HIGH_RESPONSE_TIME
  | HIGH_ERROR_RATE
  | HIGH_CPU_USAGE
  | HIGH_MEMORY_USAGE
  | ANOMALY_DETECTED
deriving DecidableEq, Repr

/-- Alert severities constructed by the monitor (string literals in the source). -/
inductive Severity
  | WARNING
  | CRITICAL
deriving DecidableEq, Repr

/-- Embedding of the `ServiceMetrics` dataclass (source lines 38-48).
The `timestamp` field is omitted (presentation-only). -/
structure ServiceMetrics where
  service_name : String
  response_time : ℚ
  error_rate : ℚ
  cpu_usage : ℚ
  memory_usage : ℚ
  request_count : ℤ
  is_healthy : Bool
deriving DecidableEq, Repr

/-- Embedding of `ServiceMetrics.to_features` (source lines 50-58):
the fixed-order five-feature vector. -/
def ServiceMetrics.to_features (m : ServiceMetrics) : List ℚ :=
  [m.response_time, m.error_rate, m.cpu_usage, m.memory_usage, (m.request_count : ℚ)]

/-- Embedding of the `HealthAlert` dataclass (source lines 60-69).
The `timestamp` and `message` fields are omitted (presentation-only). -/
structure HealthAlert where
  service_name : String
  alert_type : AlertType
  severity : Severity
  metrics : ServiceMetrics
  prediction_confidence : ℚ
deriving DecidableEq, Repr

/-- The per-service metrics history dictionary `self.metrics_history`
(source line 88), as an association list from service name to buffer. -/
abbrev History := List (String × List ServiceMetrics)

/-- Dictionary read `self.metrics_history[service_name]`: `none` models a
Python `KeyError`. -/
def histFind : History → String → Option (List ServiceMetrics)
  | [], _ => none
  | (k, v) :: rest, s => if k = s then some v else histFind rest s

/-- Dictionary write `self.metrics_history[service_name] = buf` for a key
already present (the source only writes keys it has just read). -/
def histSet : History → String → List ServiceMetrics → History
  | [], _, _ => []
  | (k, v) :: rest, s, buf =>
    if k = s then (k, buf) :: rest else (k, v) :: histSet rest s buf

/-- The buffer initialized for each configured service by
`_initialize_ml_models` (source line 109): an empty list. -/
def initialBuffer : List ServiceMetrics := []

/-- History produced by `_initialize_ml_models` (source lines 101-109):
one fresh empty buffer per configured service. -/
def initializeHistory (services : List String) : History :=
  services.map (fun s => (s, initialBuffer))

/-- Source lines 203-207 of `predict_anomaly`: append the sample to the
buffer, then keep only the last 100 entries (`[-100:]`) when the length
exceeds 100. -/
def appendSample (buf : List ServiceMetrics) (m : ServiceMetrics) : List ServiceMetrics :=
  let b := buf ++ [m]
  if b.length > 100 then b.drop (b.length - 100) else b

/-- Opaque model of the sklearn pipeline inside `predict_anomaly`
(source lines 214-228): given the current buffer (the training matrix
rows) and the newest sample, either raise (`error`) or return the
IsolationForest `predict` label (−1 = anomalous, 1 = normal) and the
`score_samples` value for the newest sample. -/
abbrev MLOracle := List ServiceMetrics → ServiceMetrics → Except Unit (ℤ × ℚ)

/-- Source line 231: `confidence = max(0, min(1, (score + 0.5) * 2))`.
The literal `0.5` is written `mkRat 1 2` (kernel-computable form of `1/2`). -/
def confidenceOf (score : ℚ) : ℚ :=
  max 0 (min 1 ((score + mkRat 1 2) * 2))

/-- Embedding of `AIHealthMonitor.predict_anomaly` (source lines 199-238).
Returns the history after the call together with `(is_anomaly, confidence)`.
The branches:
* `histFind` misses (unknown service name): the dict access on line 203
  raises `KeyError`, caught by the `except` on line 236 before any state
  change, yielding `(False, 0.0)`;
* buffer length `< 10` after the append: early return `(False, 0.0)`
  (line 210), the appended history is kept;
* the ML pipeline raises: caught by the same `except`, yielding
  `(False, 0.0)`; the append on line 203 has already mutated the history;
* otherwise `is_anomaly = (prediction == -1)` (line 233) and the clamped
  confidence of line 231. -/
def predict_anomaly (oracle : MLOracle) (hist : History) (service_name : String)
    (metrics : ServiceMetrics) : History × Bool × ℚ :=
  match histFind hist service_name with
  | none => (hist, false, 0)
  | some buf =>
    let buf' := appendSample buf metrics
    let hist' := histSet hist service_name buf'
    if buf'.length < 10 then (hist', false, 0)
    else
      match oracle buf' metrics with
      | .error _ => (hist', false, 0)
      | .ok (prediction, score) =>
        (hist', prediction == -1, confidenceOf score)

/-- The `self.thresholds` dictionary (source lines 91-96). -/
def thresholds : String → ℚ
  | "response_time" => 2
  | "error_rate" => mkRat 1 20
  | "cpu_usage" => 80
  | "memory_usage" => 85
  | _ => 0

/-- The `checks` list of `check_thresholds` (source lines 244-249):
metric name, current value, alert type, in the fixed field order. -/
def checks (m : ServiceMetrics) : List (String × ℚ × AlertType) :=
  [("response_time", m.response_time, .HIGH_RESPONSE_TIME),
   ("error_rate", m.error_rate, .HIGH_ERROR_RATE),
   ("cpu_usage", m.cpu_usage, .HIGH_CPU_USAGE),
   ("memory_usage", m.memory_usage, .HIGH_MEMORY_USAGE)]

/-- Embedding of `AIHealthMonitor.check_thresholds` (source lines 240-267):
one alert per check whose value strictly exceeds its threshold, severity
`CRITICAL` when the value strictly exceeds `threshold * 1.5`, with
`prediction_confidence = 1.0`. -/
def check_thresholds (m : ServiceMetrics) : List HealthAlert :=
  (checks m).filterMap fun c =>
    let threshold := thresholds c.1
    if c.2.1 > threshold then
      some { service_name := m.service_name
             alert_type := c.2.2
             severity := if c.2.1 > threshold * mkRat 3 2 then .CRITICAL else .WARNING
             metrics := m
             prediction_confidence := 1 }
    else none

/-- The `ANOMALY_DETECTED` alert built by `run_monitoring_cycle`
(source lines 372-380): severity `WARNING`, confidence from the engine. -/
def anomaly_alert (service_name : String) (m : ServiceMetrics) (confidence : ℚ) : HealthAlert :=
  { service_name := service_name
    alert_type := .ANOMALY_DETECTED
    severity := .WARNING
    metrics := m
    prediction_confidence := confidence }

/-- Alert fusion in `run_monitoring_cycle` (source lines 371-381): the
anomaly alert is appended after all threshold alerts iff `is_anomaly`. -/
def fuse_alerts (threshold_alerts : List HealthAlert) (service_name : String)
    (m : ServiceMetrics) (is_anomaly : Bool) (confidence : ℚ) : List HealthAlert :=
  if is_anomaly then threshold_alerts ++ [anomaly_alert service_name m confidence]
  else threshold_alerts

/-- Remediation intents emitted to the external actuator
(source lines 291-329). -/
inductive RemediationIntent
  | restart_service (service : String)
  | scale_service (service : String) (scale_up : Bool)
  | rollback_service (service : String)
deriving DecidableEq, Repr

/-- Embedding of `AIHealthMonitor.trigger_self_healing` together with the
action helpers it calls (source lines 269-329).  Returns the remediation
intents issued and the notification messages written by
`_send_notification`.  `restart_ok` models the exit status of the
`docker restart` subprocess: `_restart_service` (lines 291-305) sends its
notification only when the restart succeeded, while `_scale_service` and
`_rollback_service` (lines 307-329) are simulated and always notify.
The `else` branch (line 285) only logs. -/
def trigger_self_healing (restart_ok : Bool) (alert : HealthAlert) :
    List RemediationIntent × List String :=
  match alert.alert_type with
  | .HIGH_MEMORY_USAGE =>
    ([.restart_service alert.service_name],
     if restart_ok then
       ["Service " ++ alert.service_name ++ " restarted due to high memory usage"]
     else [])
  | .HIGH_CPU_USAGE =>
    ([.scale_service alert.service_name true],
     ["Service " ++ alert.service_name ++ " scaled up due to performance issues"])
  | .HIGH_ERROR_RATE =>
    ([.rollback_service alert.service_name],
     ["Service " ++ alert.service_name ++ " rolled back due to high error rate"])
  | .HIGH_RESPONSE_TIME =>
    ([.scale_service alert.service_name true],
     ["Service " ++ alert.service_name ++ " scaled up due to performance issues"])
  | .ANOMALY_DETECTED => ([], [])

/-- The alert-processing loop body of `run_monitoring_cycle`
(source lines 384-389): self-healing is triggered only for `CRITICAL`
alerts. -/
def process_alert (restart_ok : Bool) (alert : HealthAlert) :
    List RemediationIntent × List String :=
  if alert.severity = .CRITICAL then trigger_self_healing restart_ok alert
  else ([], [])

/-- Result of one service's slice of a monitoring cycle: the fused alert
list, and the remediation intents and notifications dispatched for it. -/
structure ServiceOutcome where
  alerts : List HealthAlert
  intents : List RemediationIntent
  notes : List String
deriving DecidableEq, Repr

/-- The empty outcome of a skipped service. -/
def skippedOutcome : ServiceOutcome := ⟨[], [], []⟩

/-- A collector (`collect_service_metrics`, source lines 111-149) either
raises (`error`, caught by the per-service handler of the cycle), returns
no sample (`ok none`, the `if not metrics: continue` path), or returns a
sample. -/
abbrev Collector := String → Except Unit (Option ServiceMetrics)

/-- One iteration of the per-service loop of
`AIHealthMonitor.run_monitoring_cycle` (source lines 350-392).  A raised
collection exception is caught by the per-service `except` (line 391)
before any state change; an absent sample hits the `continue`
(line 357).  Otherwise thresholds are checked, the anomaly engine is run
(updating the history), the alerts are fused, and each alert is
dispatched through `process_alert`. -/
def process_service (oracle : MLOracle) (restart_ok : Bool) (collect : Collector)
    (hist : History) (service_name : String) : History × ServiceOutcome :=
  match collect service_name with
  | .error _ => (hist, skippedOutcome)
  | .ok none => (hist, skippedOutcome)
  | .ok (some metrics) =>
    let threshold_alerts := check_thresholds metrics
    let r := predict_anomaly oracle hist service_name metrics
    let alerts := fuse_alerts threshold_alerts service_name metrics r.2.1 r.2.2
    let dispatched := alerts.map (process_alert restart_ok)
    (r.1, ⟨alerts, (dispatched.map Prod.fst).flatten, (dispatched.map Prod.snd).flatten⟩)

/-- Embedding of `AIHealthMonitor.run_monitoring_cycle`
(source lines 346-392): the per-service loop over the configured
services, threading the metrics history.  Returns the final history and
the outcome of every service in order.  The function is total: every
exception a loop body can raise is caught inside `process_service`, so
the cycle itself never raises. -/
def run_monitoring_cycle (oracle : MLOracle) (restart_ok : Bool) (collect : Collector)
    (hist : History) : List String → History × List (String × ServiceOutcome)
  | [] => (hist, [])
  | s :: rest =>
    let r := process_service oracle restart_ok collect hist s
    let r' := run_monitoring_cycle oracle restart_ok collect r.1 rest
    (r'.1, (s, r.2) :: r'.2)

/-! Helper lemmas about the history buffer. -/

/-- Whatever the buffer length, the eviction step of `appendSample` is the
`drop` of the over-long front: on a buffer within the 100-entry cap it
keeps the last `100` of `buf ++ [m]`. -/
theorem appendSample_eq (buf : List ServiceMetrics) (m : ServiceMetrics)
    (h : buf.length ≤ 100) :
    appendSample buf m = (buf ++ [m]).drop (buf.length + 1 - 100) := by
  unfold appendSample
  simp only [List.length_append, List.length_cons, List.length_nil, Nat.zero_add]
  split
  · rfl
  · have h0 : buf.length + 1 - 100 = 0 := by omega
    rw [h0, List.drop_zero]

/-- The eviction step preserves the 100-entry cap. -/
theorem length_appendSample_le (buf : List ServiceMetrics) (m : ServiceMetrics)
    (h : buf.length ≤ 100) : (appendSample buf m).length ≤ 100 := by
  rw [appendSample_eq buf m h]
  simp only [List.length_drop, List.length_append, List.length_cons, List.length_nil]
  omega

/-- Folding `appendSample` over a capped buffer yields exactly the last 100
entries of the concatenation, in order. -/
theorem foldl_appendSample (ms : List ServiceMetrics) :
    ∀ buf : List ServiceMetrics, buf.length ≤ 100 →
      ms.foldl appendSample buf = (buf ++ ms).drop (buf.length + ms.length - 100) := by
  induction ms with
  | nil =>
    intro buf h
    have h0 : buf.length - 100 = 0 := by omega
    simp [h0]
  | cons m rest ih =>
    intro buf h
    rw [List.foldl_cons, ih (appendSample buf m) (length_appendSample_le buf m h),
      appendSample_eq buf m h]
    have hlen : ((buf ++ [m]).drop (buf.length + 1 - 100)).length
        = buf.length + 1 - (buf.length + 1 - 100) := by
      simp
    rw [hlen, ← List.drop_append_of_le_length (by simp; omega), List.drop_drop]
    have harith : buf.length + 1 - 100 + (buf.length + 1 - (buf.length + 1 - 100)
        + rest.length - 100) = buf.length + (m :: rest).length - 100 := by
      simp only [List.length_cons]
      omega
    rw [harith, List.append_assoc, List.singleton_append]

/-- A concrete sample with all-zero metrics, used to instantiate theorems. -/
def sample0 : ServiceMetrics := ⟨"s", 0, 0, 0, 0, 0, true⟩

/-- A concrete oracle standing for a successful model run that labels the
point an inlier. -/
def okOracle : MLOracle := fun _ _ => .ok (1, 0)

/-- C3.  For every sequence of appended samples for one service, the
history buffer's length never exceeds 100; after 100 or more appends its
length is exactly 100 and it holds the 100 most recently appended
samples in their original relative (insertion) order, the oldest having
been evicted first. -/
theorem history_window_invariant (ms : List ServiceMetrics) :
    (ms.foldl appendSample initialBuffer).length ≤ 100 ∧
    (100 ≤ ms.length →
      ms.foldl appendSample initialBuffer = ms.drop (ms.length - 100) ∧
      (ms.foldl appendSample initialBuffer).length = 100) := by
  have h := foldl_appendSample ms [] (by simp)
  simp only [List.nil_append, List.length_nil, Nat.zero_add] at h
  rw [initialBuffer, h]
  refine ⟨by simp only [List.length_drop]; omega, fun h100 => ⟨rfl, ?_⟩⟩
  simp only [List.length_drop]
  omega

/-- Witness for `history_window_invariant` at a concrete 100-sample run. -/
theorem history_window_invariant_witness :
    100 ≤ (List.replicate 100 sample0).length ∧
    (List.replicate 100 sample0).foldl appendSample initialBuffer
      = (List.replicate 100 sample0).drop ((List.replicate 100 sample0).length - 100) ∧
    ((List.replicate 100 sample0).foldl appendSample initialBuffer).length = 100 :=
  ⟨by simp, (history_window_invariant (List.replicate 100 sample0)).2 (by simp)⟩

/-- C2.  If the service's history buffer (after the sample is appended)
contains fewer than 10 samples, anomaly scoring returns `(false, 0.0)`
regardless of the sample's field values (cold-start policy, source
line 210); the appended history is retained. -/
theorem cold_start_returns_no_anomaly (oracle : MLOracle) (hist : History) (s : String)
    (m : ServiceMetrics) (buf : List ServiceMetrics)
    (hbuf : histFind hist s = some buf) (hlen : (appendSample buf m).length < 10) :
    predict_anomaly oracle hist s m = (histSet hist s (appendSample buf m), false, 0) := by
  unfold predict_anomaly
  rw [hbuf]
  simp [hlen]

/-- Witness for `cold_start_returns_no_anomaly`: a first-ever sample for a
configured service. -/
theorem cold_start_returns_no_anomaly_witness :
    predict_anomaly okOracle [("s", [])] "s" sample0
      = (histSet [("s", [])] "s" (appendSample [] sample0), false, 0) :=
  cold_start_returns_no_anomaly okOracle [("s", [])] "s" sample0 []
    (by decide) (by decide)

/-! Confidence normalization. -/

/-- The confidence value is never negative. -/
theorem confidenceOf_nonneg (score : ℚ) : 0 ≤ confidenceOf score :=
  le_max_left 0 _

/-- The confidence value never exceeds one. -/
theorem confidenceOf_le_one (score : ℚ) : confidenceOf score ≤ 1 :=
  max_le (by norm_num) (min_le_left 1 _)

/-- Modelled from the spec: `clamp(v, lo, hi)`, the affine-then-clamp
normalization target named in §4.2 step 7. -/
def clamp (v lo hi : ℚ) : ℚ := min (max v lo) hi

/-- C4.  For every raw model score, the reported confidence equals
`clamp((score + 0.5) * 2, 0, 1)`, and every confidence value returned by
anomaly scoring (on any branch) lies within `[0, 1]` inclusive. -/
theorem confidence_clamped_unit_interval :
    (∀ score : ℚ,
      confidenceOf score = clamp ((score + mkRat 1 2) * 2) 0 1
        ∧ 0 ≤ confidenceOf score ∧ confidenceOf score ≤ 1)
    ∧ ∀ (oracle : MLOracle) (hist : History) (s : String) (m : ServiceMetrics),
        0 ≤ (predict_anomaly oracle hist s m).2.2
          ∧ (predict_anomaly oracle hist s m).2.2 ≤ 1 := by
  constructor
  · intro score
    refine ⟨?_, confidenceOf_nonneg score, confidenceOf_le_one score⟩
    unfold confidenceOf clamp
    set v := (score + mkRat 1 2) * 2 with hv
    rcases le_total v 0 with h0 | h0
    · rw [min_eq_right (h0.trans (by norm_num)), max_eq_left h0, max_eq_right h0,
        min_eq_left (by norm_num)]
    · rcases le_total v 1 with h1 | h1
      · rw [min_eq_right h1, max_eq_right h0, max_eq_left h0, min_eq_left h1]
      · rw [min_eq_left h1, max_eq_left h0, min_eq_right h1, max_eq_right (by norm_num)]
  · intro oracle hist s m
    unfold predict_anomaly
    rcases histFind hist s with _ | buf
    · exact ⟨le_refl 0, by norm_num⟩
    · simp only []
      split
      · exact ⟨le_refl 0, by norm_num⟩
      · rcases oracle (appendSample buf m) m with _ | ⟨p, sc⟩
        · exact ⟨le_refl 0, by norm_num⟩
        · exact ⟨confidenceOf_nonneg sc, confidenceOf_le_one sc⟩

/-! Threshold evaluation (C5). -/

/-- Modelled from the spec (§4.3): one alert for one exceeded static
limit, severity `CRITICAL` if the value strictly exceeds 1.5 times the
limit and `WARNING` otherwise, confidence 1. -/
def specLimitAlert (m : ServiceMetrics) (value limit : ℚ) (ty : AlertType) :
    List HealthAlert :=
  if value > limit then
    [{ service_name := m.service_name
       alert_type := ty
       severity := if value > mkRat 3 2 * limit then .CRITICAL else .WARNING
       metrics := m
       prediction_confidence := 1 }]
  else []

/-- Modelled from the spec (§4.3): the threshold evaluator emits, in the
fixed field order response_time, error_rate, cpu_usage, memory_usage,
one alert per field strictly exceeding its static limit
(2.0, 0.05, 80.0, 85.0 respectively). -/
def thresholdSpecAlerts (m : ServiceMetrics) : List HealthAlert :=
  specLimitAlert m m.response_time 2 .HIGH_RESPONSE_TIME
    ++ specLimitAlert m m.error_rate (mkRat 1 20) .HIGH_ERROR_RATE
    ++ specLimitAlert m m.cpu_usage 80 .HIGH_CPU_USAGE
    ++ specLimitAlert m m.memory_usage 85 .HIGH_MEMORY_USAGE

/-- The concrete sample of the C5 claim: response_time 2.5, error_rate
0.02, cpu_usage 50, memory_usage 50. -/
def sampleC5 : ServiceMetrics := ⟨"example", mkRat 5 2, mkRat 1 50, 50, 50, 100, true⟩

/-- A sample whose only exceedance is memory_usage = 90 (below 1.5×85). -/
def sampleMem90 : ServiceMetrics := ⟨"example", 0, 0, 0, 90, 100, true⟩

/-- A sample whose only exceedance is memory_usage = 130 (above 1.5×85). -/
def sampleMem130 : ServiceMetrics := ⟨"example", 0, 0, 0, 130, 100, true⟩

/-- C5.  The threshold evaluator emits exactly one alert per field whose
value strictly exceeds its static limit, in the fixed field order, with
severity `CRITICAL` iff the value strictly exceeds 1.5 times the limit,
and confidence 1.0 (it agrees with the spec-worded evaluator on every
sample); on the claim's concrete sample it emits exactly one
`HIGH_RESPONSE_TIME` alert of severity `WARNING`, and on the memory
boundary samples it emits a `WARNING` at 90 and a `CRITICAL` at 130. -/
theorem threshold_evaluator_spec :
    (∀ m : ServiceMetrics, check_thresholds m = thresholdSpecAlerts m)
    ∧ check_thresholds sampleC5 =
        [{ service_name := "example", alert_type := .HIGH_RESPONSE_TIME,
           severity := .WARNING, metrics := sampleC5, prediction_confidence := 1 }]
    ∧ check_thresholds sampleMem90 =
        [{ service_name := "example", alert_type := .HIGH_MEMORY_USAGE,
           severity := .WARNING, metrics := sampleMem90, prediction_confidence := 1 }]
    ∧ check_thresholds sampleMem130 =
        [{ service_name := "example", alert_type := .HIGH_MEMORY_USAGE,
           severity := .CRITICAL, metrics := sampleMem130, prediction_confidence := 1 }] := by
  refine ⟨fun m => ?_, by decide, by decide, by decide⟩
  simp only [check_thresholds, checks, thresholdSpecAlerts, specLimitAlert, thresholds,
    List.filterMap_cons, List.filterMap_nil]
  rw [mul_comm (mkRat 3 2) 2, mul_comm (mkRat 3 2) (mkRat 1 20),
    mul_comm (mkRat 3 2) 80, mul_comm (mkRat 3 2) 85]
  by_cases h1 : m.response_time > 2 <;> by_cases h2 : m.error_rate > mkRat 1 20 <;>
    by_cases h3 : m.cpu_usage > 80 <;> by_cases h4 : m.memory_usage > 85 <;>
    simp [h1, h2, h3, h4]

/-! Alert fusion (C6). -/

/-- No threshold alert carries the `ANOMALY_DETECTED` type. -/
theorem check_thresholds_no_anomaly_type (m : ServiceMetrics) (a : HealthAlert)
    (ha : a ∈ check_thresholds m) : a.alert_type ≠ .ANOMALY_DETECTED := by
  simp only [check_thresholds, checks, List.mem_filterMap] at ha
  obtain ⟨c, hc, hfc⟩ := ha
  have htype : a.alert_type = c.2.2 := by
    by_cases h : c.2.1 > thresholds c.1
    · simp only [h, if_pos] at hfc
      cases hfc
      rfl
    · simp [h] at hfc
  rw [htype]
  fin_cases hc <;> simp

/-- C6.  The fused alert list is all threshold alerts first, in their
original order, followed by at most one `ANOMALY_DETECTED` alert,
appended last exactly when the engine reports an anomaly, carrying
severity `WARNING` and the engine's confidence; and the alert list
produced by a cycle for a service whose collection succeeds is exactly
this fusion of its threshold alerts with its anomaly-engine result. -/
theorem alert_fusion_spec :
    (∀ (tas : List HealthAlert) (s : String) (m : ServiceMetrics) (conf : ℚ),
      fuse_alerts tas s m true conf = tas ++ [anomaly_alert s m conf]
        ∧ fuse_alerts tas s m false conf = tas)
    ∧ (∀ (s : String) (m : ServiceMetrics) (conf : ℚ),
        (anomaly_alert s m conf).severity = .WARNING
          ∧ (anomaly_alert s m conf).prediction_confidence = conf)
    ∧ (∀ (s : String) (m : ServiceMetrics) (b : Bool) (conf : ℚ),
        (fuse_alerts (check_thresholds m) s m b conf).countP
            (fun a => a.alert_type == .ANOMALY_DETECTED)
          = if b then 1 else 0)
    ∧ ∀ (oracle : MLOracle) (restart_ok : Bool) (hist : History) (s : String)
        (m : ServiceMetrics),
        (process_service oracle restart_ok (fun _ => .ok (some m)) hist s).2.alerts
          = fuse_alerts (check_thresholds m) s m
              (predict_anomaly oracle hist s m).2.1
              (predict_anomaly oracle hist s m).2.2 := by
  have hcount : ∀ m : ServiceMetrics,
      (check_thresholds m).countP (fun a => a.alert_type == .ANOMALY_DETECTED) = 0 := by
    intro m
    rw [List.countP_eq_zero]
    intro a ha
    simpa using check_thresholds_no_anomaly_type m a ha
  refine ⟨fun tas s m conf => ⟨rfl, rfl⟩, fun s m conf => ⟨rfl, rfl⟩, ?_, ?_⟩
  · intro s m b conf
    cases b
    · simpa [fuse_alerts] using hcount m
    · simp [fuse_alerts, anomaly_alert, hcount m]
  · intro oracle restart_ok hist s m
    rfl

/-! Remediation dispatch (C7). -/

/-- C7.  A remediation intent is produced only for `CRITICAL` alerts
(every `WARNING` alert yields zero intents and zero notifications), and
the alert type fixes the intent: `HIGH_MEMORY_USAGE` restarts,
`HIGH_CPU_USAGE` and `HIGH_RESPONSE_TIME` scale up, `HIGH_ERROR_RATE`
rolls back with exactly one rollback intent and one notification event,
and `ANOMALY_DETECTED` has no remediation. -/
theorem remediation_dispatch_spec (restart_ok : Bool) (s : String)
    (m : ServiceMetrics) (c : ℚ) (t : AlertType) :
    process_alert restart_ok ⟨s, t, .WARNING, m, c⟩ = ([], [])
    ∧ (process_alert restart_ok ⟨s, .HIGH_MEMORY_USAGE, .CRITICAL, m, c⟩).1
        = [.restart_service s]
    ∧ (process_alert restart_ok ⟨s, .HIGH_CPU_USAGE, .CRITICAL, m, c⟩).1
        = [.scale_service s true]
    ∧ (process_alert restart_ok ⟨s, .HIGH_RESPONSE_TIME, .CRITICAL, m, c⟩).1
        = [.scale_service s true]
    ∧ process_alert restart_ok ⟨s, .HIGH_ERROR_RATE, .CRITICAL, m, c⟩
        = ([.rollback_service s],
           ["Service " ++ s ++ " rolled back due to high error rate"])
    ∧ process_alert restart_ok ⟨s, .ANOMALY_DETECTED, .CRITICAL, m, c⟩ = ([], []) := by
  refine ⟨?_, rfl, rfl, rfl, rfl, rfl⟩
  simp [process_alert]

/-! History map lemmas. -/

/-- Updating a key that is present makes `histFind` return the new buffer. -/
theorem histFind_histSet_self (hist : History) (s : String) (v w : List ServiceMetrics)
    (h : histFind hist s = some v) : histFind (histSet hist s w) s = some w := by
  induction hist with
  | nil => simp [histFind] at h
  | cons p rest ih =>
    obtain ⟨k, u⟩ := p
    by_cases hk : k = s
    · subst hk
      simp [histFind, histSet]
    · simp only [histFind, histSet, hk, if_false] at h ⊢
      exact ih h

/-- Updating one key leaves every other key's buffer unchanged. -/
theorem histFind_histSet_ne (hist : History) (s k : String) (w : List ServiceMetrics)
    (hk : k ≠ s) : histFind (histSet hist s w) k = histFind hist k := by
  induction hist with
  | nil => rfl
  | cons p rest ih =>
    obtain ⟨t, u⟩ := p
    by_cases ht : t = s
    · subst ht
      have htk : ¬ t = k := fun h => hk h.symm
      simp [histFind, histSet, htk]
    · by_cases htk : t = k
      · subst htk
        simp [histFind, histSet, ht]
      · simp only [histFind, histSet, ht, htk, if_false]
        exact ih

/-- Every configured service receives a fresh empty buffer at startup. -/
theorem histFind_initializeHistory (services : List String) (s : String)
    (hs : s ∈ services) : histFind (initializeHistory services) s = some initialBuffer := by
  induction services with
  | nil => cases hs
  | cons t rest ih =>
    by_cases ht : t = s
    · subst ht
      simp [initializeHistory, histFind]
    · have hmem : s ∈ rest := by
        cases hs with
        | head => exact absurd rfl ht
        | tail _ h => exact h
      simp only [initializeHistory, List.map_cons, histFind, ht, if_false]
      exact ih hmem

/-- The eviction step always keeps the newly appended sample at the end:
the new buffer is a suffix of the old one followed by the sample. -/
theorem appendSample_stores (buf : List ServiceMetrics) (m : ServiceMetrics) :
    ∃ k, k ≤ buf.length ∧ appendSample buf m = buf.drop k ++ [m] := by
  unfold appendSample
  simp only [List.length_append, List.length_cons, List.length_nil]
  split
  · exact ⟨buf.length + 1 - 100, by omega,
      List.drop_append_of_le_length (by omega)⟩
  · exact ⟨0, Nat.zero_le _, by simp⟩

/-- Equation: anomaly scoring on an unknown service name (the `KeyError`
path) returns `(false, 0)` and leaves the history untouched. -/
theorem predict_anomaly_none (oracle : MLOracle) (hist : History) (s : String)
    (m : ServiceMetrics) (h : histFind hist s = none) :
    predict_anomaly oracle hist s m = (hist, false, 0) := by
  unfold predict_anomaly
  rw [h]

/-- Equation: anomaly scoring on a present buffer appends the sample
(with eviction) and pairs the updated history with the score result. -/
theorem predict_anomaly_some (oracle : MLOracle) (hist : History) (s : String)
    (m : ServiceMetrics) (buf : List ServiceMetrics) (h : histFind hist s = some buf) :
    predict_anomaly oracle hist s m
      = (histSet hist s (appendSample buf m),
         if (appendSample buf m).length < 10 then (false, 0)
         else match oracle (appendSample buf m) m with
              | .error _ => (false, 0)
              | .ok (p, sc) => (p == -1, confidenceOf sc)) := by
  unfold predict_anomaly
  rw [h]
  dsimp only []
  split
  · rfl
  · rcases oracle (appendSample buf m) m with _ | ⟨p, sc⟩ <;> rfl

/-- Anomaly scoring never touches another service's buffer. -/
theorem predict_anomaly_hist_ne (oracle : MLOracle) (hist : History) (s : String)
    (m : ServiceMetrics) (k : String) (hk : k ≠ s) :
    histFind (predict_anomaly oracle hist s m).1 k = histFind hist k := by
  rcases hfind : histFind hist s with _ | buf
  · rw [predict_anomaly_none oracle hist s m hfind]
  · rw [predict_anomaly_some oracle hist s m buf hfind]
    exact histFind_histSet_ne hist s k _ hk

/-- Anomaly scoring for a service depends only on that service's buffer:
two histories agreeing at the service yield the same score result and
agree at the service afterwards. -/
theorem predict_anomaly_congr (oracle : MLOracle) (h₁ h₂ : History) (s : String)
    (m : ServiceMetrics) (hh : histFind h₁ s = histFind h₂ s) :
    (predict_anomaly oracle h₁ s m).2 = (predict_anomaly oracle h₂ s m).2
    ∧ histFind (predict_anomaly oracle h₁ s m).1 s
        = histFind (predict_anomaly oracle h₂ s m).1 s := by
  rcases hfind : histFind h₂ s with _ | buf
  · rw [predict_anomaly_none oracle h₁ s m (hh.trans hfind),
      predict_anomaly_none oracle h₂ s m hfind]
    exact ⟨rfl, hh⟩
  · rw [predict_anomaly_some oracle h₁ s m buf (hh.trans hfind),
      predict_anomaly_some oracle h₂ s m buf hfind]
    refine ⟨rfl, ?_⟩
    rw [histFind_histSet_self h₁ s buf _ (hh.trans hfind),
      histFind_histSet_self h₂ s buf _ hfind]

/-- One service's cycle step never touches another service's buffer. -/
theorem process_service_hist_ne (oracle : MLOracle) (restart_ok : Bool)
    (collect : Collector) (hist : History) (t k : String) (hk : k ≠ t) :
    histFind (process_service oracle restart_ok collect hist t).1 k = histFind hist k := by
  unfold process_service
  rcases collect t with _ | mopt
  · rfl
  · rcases mopt with _ | m
    · rfl
    · exact predict_anomaly_hist_ne oracle hist t m k hk

/-- One service's cycle step depends only on its own collector result and
its own buffer. -/
theorem process_service_congr (oracle : MLOracle) (restart_ok : Bool)
    (c₁ c₂ : Collector) (h₁ h₂ : History) (t : String)
    (hc : c₁ t = c₂ t) (hh : histFind h₁ t = histFind h₂ t) :
    (process_service oracle restart_ok c₁ h₁ t).2
        = (process_service oracle restart_ok c₂ h₂ t).2
    ∧ histFind (process_service oracle restart_ok c₁ h₁ t).1 t
        = histFind (process_service oracle restart_ok c₂ h₂ t).1 t := by
  unfold process_service
  rw [hc]
  rcases c₂ t with _ | mopt
  · exact ⟨rfl, hh⟩
  · rcases mopt with _ | m
    · exact ⟨rfl, hh⟩
    · dsimp only []
      obtain ⟨hres, hfind⟩ := predict_anomaly_congr oracle h₁ h₂ t m hh
      exact ⟨by rw [hres], hfind⟩

/-- A service whose collection fails or returns no sample is skipped with
no state change. -/
theorem process_service_skipped (oracle : MLOracle) (restart_ok : Bool)
    (c : Collector) (hist : History) (t : String)
    (hfail : c t = .error () ∨ c t = .ok none) :
    process_service oracle restart_ok c hist t = (hist, skippedOutcome) := by
  unfold process_service
  rcases hfail with h | h <;> rw [h]

/-- The cycle emits one outcome entry per configured service, in order,
whatever the collector and oracle do. -/
theorem run_monitoring_cycle_names (oracle : MLOracle) (restart_ok : Bool)
    (collect : Collector) :
    ∀ (services : List String) (hist : History),
      (run_monitoring_cycle oracle restart_ok collect hist services).2.map Prod.fst
        = services := by
  intro services
  induction services with
  | nil => intro hist; rfl
  | cons s rest ih =>
    intro hist
    simp [run_monitoring_cycle, ih]

/-! Buffer creation on append (C1). -/

/-- C1 counterexample.  Scoring a sample for a service name that has no
existing history buffer does not store the sample: the dictionary access
raises `KeyError`, the handler returns `(false, 0.0)`, and afterwards the
history still has no buffer for that service — no fresh empty buffer is
created lazily. -/
theorem lazy_buffer_creation_counterexample :
    histFind (predict_anomaly okOracle [] "payment-service" sample0).1 "payment-service"
        = none
    ∧ (predict_anomaly okOracle [] "payment-service" sample0).2 = (false, 0) := by
  decide

/-- C1 (amended).  Appending never propagates an exception: for a service
name with no buffer the `KeyError` is caught and scoring returns
`(false, 0.0)` with the history unchanged (no buffer is created); for a
service name whose buffer exists — in particular every configured
service, which `_initialize_ml_models` gave a fresh empty buffer at
startup — the append stores the sample at the end of that service's
buffer. -/
theorem append_never_fails_amended (oracle : MLOracle) (hist : History) (s : String)
    (m : ServiceMetrics) :
    (histFind hist s = none → predict_anomaly oracle hist s m = (hist, false, 0))
    ∧ (∀ buf, histFind hist s = some buf →
        histFind (predict_anomaly oracle hist s m).1 s = some (appendSample buf m)
          ∧ ∃ k, k ≤ buf.length ∧ appendSample buf m = buf.drop k ++ [m])
    ∧ ∀ services : List String, s ∈ services →
        histFind (initializeHistory services) s = some initialBuffer := by
  refine ⟨fun h => predict_anomaly_none oracle hist s m h,
    fun buf h => ⟨?_, appendSample_stores buf m⟩,
    fun services hs => histFind_initializeHistory services s hs⟩
  rw [predict_anomaly_some oracle hist s m buf h]
  exact histFind_histSet_self hist s buf _ h

/-- Witness for `append_never_fails_amended` at concrete inputs covering
all three conjuncts. -/
theorem append_never_fails_amended_witness :
    predict_anomaly okOracle [] "x" sample0 = ([], false, 0)
    ∧ histFind (predict_anomaly okOracle [("s", [])] "s" sample0).1 "s"
        = some (appendSample [] sample0)
    ∧ histFind (initializeHistory ["product-service"]) "product-service"
        = some initialBuffer :=
  ⟨(append_never_fails_amended okOracle [] "x" sample0).1 (by decide),
   ((append_never_fails_amended okOracle [("s", [])] "s" sample0).2.1 [] (by decide)).1,
   (append_never_fails_amended okOracle [] "product-service" sample0).2.2
     ["product-service"] (by decide)⟩

/-! Failure containment in scoring (C8). -/

/-- C8.  A failing model pipeline (the oracle raising on every input) is
caught inside anomaly scoring and yields `(false, 0.0)`; and whatever the
oracle and collector do, the monitoring cycle runs to completion,
producing one outcome entry per configured service — no exception
escapes the scoring operation to abort the cycle. -/
theorem scoring_failure_contained (hist : History) (s : String) (m : ServiceMetrics) :
    (predict_anomaly (fun _ _ => Except.error ()) hist s m).2 = (false, 0)
    ∧ ∀ (oracle : MLOracle) (restart_ok : Bool) (collect : Collector)
        (services : List String),
        (run_monitoring_cycle oracle restart_ok collect hist services).2.map Prod.fst
          = services := by
  constructor
  · rcases hfind : histFind hist s with _ | buf
    · rw [predict_anomaly_none _ hist s m hfind]
    · rw [predict_anomaly_some _ hist s m buf hfind]
      dsimp only []
      split <;> rfl
  · intro oracle restart_ok collect services
    exact run_monitoring_cycle_names oracle restart_ok collect services hist

/-! Per-service isolation in the cycle (C9). -/

/-- C9.  A collection failure (raised or "no sample") for one service
causes only that service to be skipped in the cycle: with two collectors
that differ only at the failing service, every other service's alerts,
intents and notifications are identical, the failing service's outcome is
empty, and the cycle still returns an outcome entry for every service (it
never raises — the embedding is total and every per-service failure is
consumed inside `process_service`). -/
theorem cycle_service_isolation (oracle : MLOracle) (restart_ok : Bool)
    (c₁ c₂ : Collector) (s : String)
    (hagree : ∀ k, k ≠ s → c₁ k = c₂ k)
    (hfail : c₂ s = .error () ∨ c₂ s = .ok none) :
    ∀ (services : List String) (h₁ h₂ : History),
      (∀ k, k ≠ s → histFind h₁ k = histFind h₂ k) →
      List.Forall₂ (fun p q : String × ServiceOutcome =>
          p.1 = q.1 ∧ (p.1 ≠ s → p.2 = q.2))
        (run_monitoring_cycle oracle restart_ok c₁ h₁ services).2
        (run_monitoring_cycle oracle restart_ok c₂ h₂ services).2
      ∧ ∀ p ∈ (run_monitoring_cycle oracle restart_ok c₂ h₂ services).2,
          p.1 = s → p.2 = skippedOutcome := by
  intro services
  induction services with
  | nil =>
    intro h₁ h₂ _
    exact ⟨List.Forall₂.nil, fun p hp => absurd hp (by simp [run_monitoring_cycle])⟩
  | cons t rest ih =>
    intro h₁ h₂ hinv
    have hstep : ∀ k, k ≠ s →
        histFind (process_service oracle restart_ok c₁ h₁ t).1 k
          = histFind (process_service oracle restart_ok c₂ h₂ t).1 k := by
      intro k hk
      by_cases hts : t = s
      · subst hts
        rw [(process_service_skipped oracle restart_ok c₂ h₂ t hfail :)]
        rw [process_service_hist_ne oracle restart_ok c₁ h₁ t k hk]
        exact hinv k hk
      · by_cases hkt : k = t
        · subst hkt
          exact (process_service_congr oracle restart_ok c₁ c₂ h₁ h₂ k
            (hagree k hts) (hinv k hts)).2
        · rw [process_service_hist_ne oracle restart_ok c₁ h₁ t k hkt,
            process_service_hist_ne oracle restart_ok c₂ h₂ t k hkt]
          exact hinv k hk
    obtain ⟨ihfa, ihskip⟩ :=
      ih (process_service oracle restart_ok c₁ h₁ t).1
        (process_service oracle restart_ok c₂ h₂ t).1 hstep
    constructor
    · simp only [run_monitoring_cycle]
      refine List.Forall₂.cons ⟨rfl, fun hts => ?_⟩ ihfa
      exact (process_service_congr oracle restart_ok c₁ c₂ h₁ h₂ t
        (hagree t hts) (hinv t hts)).1
    · simp only [run_monitoring_cycle]
      intro p hp hps
      rcases List.mem_cons.mp hp with rfl | htail
      · dsimp only [] at hps ⊢
        subst hps
        rw [(process_service_skipped oracle restart_ok c₂ h₂ t hfail :)]
      · exact ihskip p htail hps

/-- A collector that returns a sample for every service. -/
def collectAll : Collector := fun _ => .ok (some sample0)

/-- A collector that returns no sample for service "a" and a sample for
every other service. -/
def collectFailA : Collector := fun k =>
  if k = "a" then .ok none else .ok (some sample0)

/-- Witness for `cycle_service_isolation`: a two-service cycle where
collection fails for service "a" only. -/
theorem cycle_service_isolation_witness :
    (List.Forall₂ (fun p q : String × ServiceOutcome =>
        p.1 = q.1 ∧ (p.1 ≠ "a" → p.2 = q.2))
      (run_monitoring_cycle okOracle true collectAll [("a", []), ("b", [])] ["a", "b"]).2
      (run_monitoring_cycle okOracle true collectFailA [("a", []), ("b", [])] ["a", "b"]).2)
    ∧ ∀ p ∈ (run_monitoring_cycle okOracle true collectFailA
        [("a", []), ("b", [])] ["a", "b"]).2,
        p.1 = "a" → p.2 = skippedOutcome :=
  cycle_service_isolation okOracle true collectAll collectFailA "a"
    (fun k hk => by simp [collectAll, collectFailA, hk])
    (Or.inr (by simp [collectFailA])) ["a", "b"]
    [("a", []), ("b", [])] [("a", []), ("b", [])] (fun _ _ => rfl)

/-! Anomaly alerts never reach the dispatcher (C10). -/

/-- Every `ANOMALY_DETECTED` alert in a service's fused alert list has
severity `WARNING`. -/
theorem process_service_alerts_anomaly (oracle : MLOracle) (restart_ok : Bool)
    (collect : Collector) (hist : History) (t : String) (a : HealthAlert)
    (ha : a ∈ (process_service oracle restart_ok collect hist t).2.alerts)
    (hty : a.alert_type = .ANOMALY_DETECTED) : a.severity = .WARNING := by
  unfold process_service at ha
  rcases hcol : collect t with _ | mopt
  · rw [hcol] at ha
    simp [skippedOutcome] at ha
  · rcases mopt with _ | m
    · rw [hcol] at ha
      simp [skippedOutcome] at ha
    · rw [hcol] at ha
      dsimp only [] at ha
      cases hb : (predict_anomaly oracle hist t m).2.1 with
      | false =>
        rw [hb] at ha
        simp only [fuse_alerts, Bool.false_eq_true, if_false] at ha
        exact absurd hty (check_thresholds_no_anomaly_type m a ha)
      | true =>
        rw [hb] at ha
        simp only [fuse_alerts, if_true] at ha
        rcases List.mem_append.mp ha with hl | hr
        · exact absurd hty (check_thresholds_no_anomaly_type m a hl)
        · rcases List.mem_singleton.mp hr with rfl
          rfl

/-- C10.  In every reachable execution of the monitoring cycle, every
`ANOMALY_DETECTED` alert carries severity `WARNING`, so the dispatching
step passes it to no remediation at all: `process_alert` returns no
intent and no notification for it (the dispatcher's no-remediation
branch for a CRITICAL anomaly alert is unreachable from the cycle). -/
theorem anomaly_alert_never_dispatched (oracle : MLOracle) (restart_ok : Bool)
    (collect : Collector) (hist : History) (services : List String) :
    ∀ p ∈ (run_monitoring_cycle oracle restart_ok collect hist services).2,
      ∀ a ∈ p.2.alerts, a.alert_type = .ANOMALY_DETECTED →
        a.severity = .WARNING ∧ process_alert restart_ok a = ([], []) := by
  induction services generalizing hist with
  | nil =>
    intro p hp
    simp [run_monitoring_cycle] at hp
  | cons t rest ih =>
    intro p hp a ha hty
    simp only [run_monitoring_cycle] at hp
    rcases List.mem_cons.mp hp with rfl | htail
    · have hw : a.severity = .WARNING :=
        process_service_alerts_anomaly oracle restart_ok collect hist t a ha hty
      exact ⟨hw, by simp [process_alert, hw]⟩
    · exact ih _ p htail a ha hty

/-- A concrete oracle standing for a successful model run that labels the
point an outlier (`predict` returns −1). -/
def anomalyOracle : MLOracle := fun _ _ => .ok (-1, 0)

/-- Witness for `anomaly_alert_never_dispatched` on a concrete cycle that
does raise an anomaly alert. -/
theorem anomaly_alert_never_dispatched_witness :
    (anomaly_alert "s" sample0 1).severity = .WARNING
    ∧ process_alert true (anomaly_alert "s" sample0 1) = ([], []) :=
  anomaly_alert_never_dispatched anomalyOracle true (fun _ => .ok (some sample0))
    [("s", List.replicate 9 sample0)] ["s"]
    ("s", ⟨[anomaly_alert "s" sample0 1], [], []⟩) (by decide)
    (anomaly_alert "s" sample0 1) (by decide) rfl

end AutoHealX
